import Mathlib

/-!
Shallow embedding of `src/utils/get-miners.py`: a CLI tool that fetches
the neurons of a Bittensor subnet metagraph and exports `uid,coldkey,hotkey`
rows to `./output/miners.csv`.

The network/SDK boundary (`bt.subtensor`, `sub.metagraph`) is modelled by an
environment value `FetchEnv` describing what the external SDK does on this
run; everything downstream of that boundary is translated from the source.
-/

namespace GetMiners

/-- A neuron record of the metagraph, as used by `get_miners`
(`neuron.uid`, `neuron.hotkey`, `neuron.coldkey`).  Real `NeuronInfo`
objects also embed stake/incentive values; we carry them so that we can
state that the code does NOT read them. -/
structure Neuron where
  uid : Nat
  hotkey : String
  coldkey : String
  stakeField : Int
  incentiveField : Int
  deriving Repr, DecidableEq

/-- The metagraph snapshot: the neuron list plus the parallel indexed
arrays `metagraph.S` (stake) and `metagraph.I` (incentive). -/
structure Metagraph where
  neurons : List Neuron
  S : List Int
  I : List Int
  deriving Repr, DecidableEq

/-- One entry of the `miners_info` list built by `get_miners`
(`{"uid": ..., "hotkey": ..., "coldkey": ..., "stake": ..., "incentive": ...}`). -/
structure MinerData where
  uid : Nat
  hotkey : String
  coldkey : String
  stake : Int
  incentive : Int
  deriving Repr, DecidableEq

/-- What the external SDK does on this run: `bt.subtensor(network=...)`
returns a falsy value, `sub.metagraph(netuid=...)` returns a falsy value,
some call raises an exception with message `msg`, or a metagraph snapshot
is obtained. -/
inductive FetchEnv where
  | connectFail : FetchEnv
  | metagraphFail : FetchEnv
  | raises : String → FetchEnv
  | ok : Metagraph → FetchEnv
  deriving Repr, DecidableEq

/-- Message of the `IndexError` raised when `metagraph.S[uid]` or
`metagraph.I[uid]` is indexed out of bounds during the neuron loop. -/
def indexErrorMsg : String := "index out of bounds"

/-- The loop `for neuron in metagraph.neurons: miners_info.append(...)`.
Indexing `metagraph.S[neuron.uid]` / `metagraph.I[neuron.uid]` raises
(`none`) when `uid` is out of range of the parallel arrays. -/
def buildMiners (m : Metagraph) : List Neuron → Option (List MinerData)
  | [] => some []
  | n :: rest =>
    match m.S[n.uid]?, m.I[n.uid]? with
    | some s, some i =>
      match buildMiners m rest with
      | some tl =>
        some ({ uid := n.uid, hotkey := n.hotkey, coldkey := n.coldkey,
                stake := s, incentive := i } :: tl)
      | none => none
    | _, _ => none

/-- `get_miners(netuid, network)`: returns `(miners_info, None)` on success,
`([], note)` when the metagraph has no neurons, and `(None, message)` on any
failure (connection, metagraph retrieval, or an exception in the loop). -/
def get_miners (netuid : Int) (network : String) (env : FetchEnv) :
    Option (List MinerData) × Option String :=
  match env with
  | .connectFail =>
      (none, some ("Failed to connect to Bittensor network: " ++ network))
  | .metagraphFail =>
      (none, some ("Failed to retrieve metagraph for netuid: " ++ toString netuid))
  | .raises msg =>
      (none, some ("An error occurred: " ++ msg))
  | .ok m =>
    match buildMiners m m.neurons with
    | none => (none, some ("An error occurred: " ++ indexErrorMsg))
    | some miners_info =>
      if miners_info.isEmpty then
        (some [], some "No neurons found in the metagraph for this subnet.")
      else
        (some miners_info, none)

/-! ## CSV serialisation (`csv.DictWriter` with default dialect) -/

/-- `csv` QUOTE_MINIMAL: a field is quoted iff it contains the delimiter,
the quote character, or a line break. -/
def csvQuoteNeeded (s : String) : Bool :=
  s.data.any (fun c => c = ',' || c = '"' || c = '\r' || c = '\n')

/-- Double every quote character in the field. -/
def csvEscape (s : String) : String :=
  s.foldl (fun acc c => acc ++ (if c = '"' then "\"\"" else String.singleton c)) ""

/-- Serialise one CSV field (quote and escape only when needed). -/
def csvField (s : String) : String :=
  if csvQuoteNeeded s then "\"" ++ csvEscape s ++ "\"" else s

/-- One record written by `writer.writerow(...)`, fields in the order
`fieldnames = ['uid', 'coldkey', 'hotkey']`. -/
def minerRow (mi : MinerData) : String :=
  csvField (toString mi.uid) ++ "," ++ csvField mi.coldkey ++ "," ++ csvField mi.hotkey

/-- The header row written by `writer.writeheader()`. -/
def headerRow : String :=
  csvField "uid" ++ "," ++ csvField "coldkey" ++ "," ++ csvField "hotkey"

/-- The lines (header then one row per record) of the produced CSV file. -/
def outputLines (miners : List MinerData) : List String :=
  headerRow :: miners.map minerRow

/-- The `csv` module terminates every row with CRLF (and `open(...,
newline='')` passes it through unchanged). -/
def crlf : String := "\r\n"

/-- Full content of `./output/miners.csv` after a successful export. -/
def csvContent (miners : List MinerData) : String :=
  String.join ((outputLines miners).map (fun l => l ++ crlf))

/-! ## `main` -/

/-- What the file-system does during the export block: succeeds, raises
`IOError` (from `os.makedirs` or the write), or raises some other
exception.  On a failed attempt the output file is left holding
`leftover` (untouched or partially written). -/
inductive WriteOutcome where
  | ok : WriteOutcome
  | ioError : String → Option String → WriteOutcome
  | otherError : String → Option String → WriteOutcome
  deriving Repr, DecidableEq

/-- Observable result of one run of the program. -/
structure RunResult where
  exitCode : Nat
  stdoutLines : List String
  stderrLines : List String
  outFile : Option String
  deriving Repr, DecidableEq

/-- Python truthiness of the `err` variable (`None` and `""` are falsy). -/
def strTruthy : Option String → Bool
  | none => false
  | some s => !s.isEmpty

/-- Python truthiness of the `miners` variable (`None` and `[]` are falsy). -/
def listTruthy : Option (List MinerData) → Bool
  | none => false
  | some l => !l.isEmpty

/-- `os.path.join("./output", "miners.csv")`. -/
def output_file : String := "./output/miners.csv"

/-- `main()` after argument parsing: `pre` is the content of
`./output/miners.csv` before the run (`none` if absent). -/
def main (netuid : Int) (network : String) (env : FetchEnv)
    (w : WriteOutcome) (pre : Option String) : RunResult :=
  let r := get_miners netuid network env
  let miners := r.1
  let err := r.2
  if strTruthy err then
    { exitCode := 1, stdoutLines := [],
      stderrLines := ["Error: " ++ err.getD ""], outFile := pre }
  else if !listTruthy miners then
    { exitCode := 0,
      stdoutLines := ["No miners found for netuid " ++ toString netuid ++
        " on network " ++ network ++ "."],
      stderrLines := [], outFile := pre }
  else
    match w with
    | .ok =>
      { exitCode := 0,
        stdoutLines := ["Successfully wrote miner data to " ++ output_file],
        stderrLines := [],
        outFile := some (csvContent (miners.getD [])) }
    | .ioError msg leftover =>
      { exitCode := 1, stdoutLines := [],
        stderrLines := ["Error writing to file " ++ output_file ++ ": " ++ msg],
        outFile := leftover }
    | .otherError msg leftover =>
      { exitCode := 1, stdoutLines := [],
        stderrLines := ["An unexpected error occurred during file writing: " ++ msg],
        outFile := leftover }

/-! ## Auxiliary definitions used in statements -/

/-- Pointwise relation between a neuron of the snapshot and the record the
loop body builds from it. -/
def MinesFrom (m : Metagraph) (n : Neuron) (r : MinerData) : Prop :=
  r.uid = n.uid ∧ r.hotkey = n.hotkey ∧ r.coldkey = n.coldkey ∧
  m.S[n.uid]? = some r.stake ∧ m.I[n.uid]? = some r.incentive

/-- The environments on which the fetch step fails: the SDK boundary fails
or raises, or the neuron-loop traversal itself raises. -/
def fetchFails : FetchEnv → Prop
  | .connectFail => True
  | .metagraphFail => True
  | .raises _ => True
  | .ok m => buildMiners m m.neurons = none

/-- Replace the stake/incentive values embedded in a neuron record (the
fields `get_miners` never reads). -/
def setEmbedded (f g : Neuron → Int) (n : Neuron) : Neuron :=
  { n with stakeField := f n, incentiveField := g n }

/-- The CSV row determined directly by a neuron of the snapshot. -/
def neuronRow (n : Neuron) : String :=
  csvField (toString n.uid) ++ "," ++ csvField n.coldkey ++ "," ++ csvField n.hotkey

/-! ## Helper lemmas -/

/-- A string with a non-empty left part is non-empty. -/
lemma append_isEmpty_false (a b : String) (h : a.data ≠ []) :
    (a ++ b).isEmpty = false := by
  rw [Bool.eq_false_iff]
  intro hc
  rw [String.isEmpty_iff] at hc
  have h2 := congrArg String.data hc
  rw [String.data_append] at h2
  simp at h2
  exact h h2.1

/-- Every error message produced by `get_miners` is a non-empty string, so
`if err:` in `main` treats it as truthy. -/
lemma get_miners_msg_isEmpty_false (netuid : Int) (network : String)
    (env : FetchEnv) (msg : String)
    (h : (get_miners netuid network env).2 = some msg) : msg.isEmpty = false := by
  cases env with
  | connectFail =>
    simp [get_miners] at h
    exact h ▸ append_isEmpty_false _ _ (by decide)
  | metagraphFail =>
    simp [get_miners] at h
    exact h ▸ append_isEmpty_false _ _ (by decide)
  | raises e =>
    simp [get_miners] at h
    exact h ▸ append_isEmpty_false _ _ (by decide)
  | ok m =>
    simp only [get_miners] at h
    cases hb : buildMiners m m.neurons with
    | none =>
      rw [hb] at h
      simp at h
      exact h ▸ append_isEmpty_false _ _ (by decide)
    | some mi =>
      rw [hb] at h
      by_cases he : mi.isEmpty
      · simp [he] at h
        exact h ▸ (by decide)
      · simp [he] at h

/-- A successful `get_miners` (error component `None`) returns a non-empty
list: the empty list is always paired with the informational note. -/
lemma get_miners_none_err_ne_nil (netuid : Int) (network : String)
    (env : FetchEnv) (miners : List MinerData)
    (h : get_miners netuid network env = (some miners, none)) : miners ≠ [] := by
  cases env with
  | connectFail => simp [get_miners] at h
  | metagraphFail => simp [get_miners] at h
  | raises e => simp [get_miners] at h
  | ok m =>
    simp only [get_miners] at h
    cases hb : buildMiners m m.neurons with
    | none => rw [hb] at h; simp at h
    | some mi =>
      rw [hb] at h
      by_cases he : mi.isEmpty
      · simp [he] at h
      · simp [he] at h
        intro hnil
        exact he (by simp [h, hnil])

/-- If `get_miners` returns a record list at all, the environment supplied a
metagraph and the neuron-loop traversal produced exactly that list. -/
lemma get_miners_fst_some (netuid : Int) (network : String) (env : FetchEnv)
    (miners : List MinerData)
    (h : (get_miners netuid network env).1 = some miners) :
    ∃ m, env = .ok m ∧ buildMiners m m.neurons = some miners := by
  cases env with
  | connectFail => simp [get_miners] at h
  | metagraphFail => simp [get_miners] at h
  | raises e => simp [get_miners] at h
  | ok m =>
    refine ⟨m, rfl, ?_⟩
    simp only [get_miners] at h
    cases hb : buildMiners m m.neurons with
    | none => rw [hb] at h; simp at h
    | some mi =>
      rw [hb] at h
      by_cases he : mi.isEmpty
      · simp [he] at h
        rw [List.isEmpty_iff] at he
        rw [he, h]
      · simp [he] at h
        rw [h]

/-- A successful traversal produces records pointwise related to the
neurons, in the same order. -/
lemma buildMiners_forall₂ (m : Metagraph) :
    ∀ ns l, buildMiners m ns = some l → List.Forall₂ (MinesFrom m) ns l := by
  intro ns
  induction ns with
  | nil => intro l h; simp [buildMiners] at h; subst h; exact List.Forall₂.nil
  | cons n rest ih =>
    intro l h
    simp only [buildMiners] at h
    cases hS : m.S[n.uid]? with
    | none => rw [hS] at h; simp at h
    | some s =>
      cases hI : m.I[n.uid]? with
      | none => rw [hS, hI] at h; simp at h
      | some i =>
        rw [hS, hI] at h
        cases hb : buildMiners m rest with
        | none => rw [hb] at h; simp at h
        | some tl =>
          rw [hb] at h
          simp at h
          subst h
          exact List.Forall₂.cons ⟨rfl, rfl, rfl, hS, hI⟩ (ih tl hb)

/-- The records carry exactly the neurons' uids, in order. -/
lemma forall₂_map_uid (m : Metagraph) {ns : List Neuron} {l : List MinerData}
    (h : List.Forall₂ (MinesFrom m) ns l) :
    l.map MinerData.uid = ns.map Neuron.uid := by
  induction h with
  | nil => rfl
  | cons hr _ ih => simp [ih, hr.1]

/-- The traversal never reads the stake/incentive values embedded in the
neuron records: replacing them changes nothing. -/
lemma buildMiners_setEmbedded (m : Metagraph) (f g : Neuron → Int) :
    ∀ ns, buildMiners { m with neurons := m.neurons.map (setEmbedded f g) }
      (ns.map (setEmbedded f g)) = buildMiners m ns := by
  intro ns
  induction ns with
  | nil => rfl
  | cons n rest ih =>
    simp only [List.map_cons, buildMiners, setEmbedded, ih]

/-- Projection of `MinesFrom` onto the stake/incentive components. -/
lemma forall₂_stake_incentive (m : Metagraph) {ns : List Neuron} {l : List MinerData}
    (h : List.Forall₂ (MinesFrom m) ns l) :
    List.Forall₂ (fun n r => m.S[n.uid]? = some r.stake ∧
      m.I[n.uid]? = some r.incentive) ns l := by
  induction h with
  | nil => exact List.Forall₂.nil
  | cons hr _ ih => exact List.Forall₂.cons ⟨hr.2.2.2.1, hr.2.2.2.2⟩ ih

/-- Each record serialises to the row determined by its neuron. -/
lemma forall₂_map_row (m : Metagraph) {ns : List Neuron} {l : List MinerData}
    (h : List.Forall₂ (MinesFrom m) ns l) :
    l.map minerRow = ns.map neuronRow := by
  induction h with
  | nil => rfl
  | cons hr _ ih =>
    simp only [List.map_cons, ih, minerRow, neuronRow, hr.1, hr.2.1, hr.2.2.1]

/-- The two error lines of the export block never coincide, whatever the
exception messages are. -/
lemma export_err_lines_ne (a b : String) :
    "Error writing to file " ++ output_file ++ ": " ++ a ≠
    "An unexpected error occurred during file writing: " ++ b := by
  intro h
  have h2 := congrArg String.data h
  simp only [String.data_append, output_file] at h2
  have h3 := congrArg List.head? h2
  simp at h3

/-! ## Claim theorems -/

/-- C1: for a snapshot with zero participants, `get_miners` does return an
empty list paired with the informational note — but `main` then takes the
error branch (`if err:` sees the note), prints `Error: ...` to standard
error, creates no output file, and exits with code 1, not 0.  The
`No miners found` informational branch of `main` is unreachable. -/
theorem C1_zero_participants_exit_code :
    get_miners 5 "finney" (.ok ⟨[], [], []⟩) =
      (some [], some "No neurons found in the metagraph for this subnet.") ∧
    main 5 "finney" (.ok ⟨[], [], []⟩) .ok none =
      { exitCode := 1, stdoutLines := [],
        stderrLines := ["Error: No neurons found in the metagraph for this subnet."],
        outFile := none } := ⟨rfl, rfl⟩

/-- C2: whenever the fetch succeeds with a record list, the exporter writes
to the output file exactly a header row followed by one row per record
(`miners.length + 1` lines), each data row holding the three fields
`uid`, `coldkey`, `hotkey` in that column order. -/
theorem C2_export_header_and_rows (netuid : Int) (network : String)
    (m : Metagraph) (miners : List MinerData) (pre : Option String)
    (h : get_miners netuid network (.ok m) = (some miners, none)) :
    (main netuid network (.ok m) .ok pre).outFile = some (csvContent miners) ∧
    csvContent miners =
      String.join ((headerRow :: miners.map minerRow).map (fun l => l ++ crlf)) ∧
    (outputLines miners).length = miners.length + 1 ∧
    headerRow = "uid,coldkey,hotkey" ∧
    ∀ mi ∈ miners, minerRow mi =
      csvField (toString mi.uid) ++ "," ++ csvField mi.coldkey ++ "," ++
        csvField mi.hotkey := by
  have hne := get_miners_none_err_ne_nil netuid network (.ok m) miners h
  have hie : miners.isEmpty = false := by
    rw [Bool.eq_false_iff, Ne, List.isEmpty_iff]; exact hne
  refine ⟨?_, rfl, by simp [outputLines], by decide, fun mi _ => rfl⟩
  simp [main, h, strTruthy, listTruthy, hie]

/-- C2 witness: the spec's scenario — snapshot with the single participant
`uid 0, hotkey "hkA", coldkey "ckA"` — produces the file
`uid,coldkey,hotkey` then `0,ckA,hkA`. -/
theorem C2_export_header_and_rows_witness :
    (main 5 "finney" (.ok ⟨[⟨0, "hkA", "ckA", 10, 0⟩], [10], [0]⟩) .ok none).outFile =
      some (csvContent [⟨0, "hkA", "ckA", 10, 0⟩]) ∧
    csvContent [⟨0, "hkA", "ckA", 10, 0⟩] = "uid,coldkey,hotkey\r\n0,ckA,hkA\r\n" :=
  ⟨(C2_export_header_and_rows 5 "finney" ⟨[⟨0, "hkA", "ckA", 10, 0⟩], [10], [0]⟩
      [⟨0, "hkA", "ckA", 10, 0⟩] none (by decide)).1, by decide⟩

/-- C3: whenever the fetch step fails (`get_miners` returns `None` records
with a non-`None` message), the program writes `Error: <msg>` to standard
error, leaves the output file untouched, prints nothing to standard
output, and exits with code 1. -/
theorem C3_fetch_failure_exits_one (netuid : Int) (network : String)
    (env : FetchEnv) (w : WriteOutcome) (pre : Option String) (msg : String)
    (h : get_miners netuid network env = (none, some msg)) :
    main netuid network env w pre =
      { exitCode := 1, stdoutLines := [],
        stderrLines := ["Error: " ++ msg], outFile := pre } := by
  have hne : msg.isEmpty = false :=
    get_miners_msg_isEmpty_false netuid network env msg (by rw [h])
  simp [main, h, strTruthy, hne]

/-- C3 witness: a connection failure on a run with no pre-existing output
file exits 1, writes the prefixed message to stderr, and writes no file. -/
theorem C3_fetch_failure_exits_one_witness :
    main 5 "finney" .connectFail .ok none =
      { exitCode := 1, stdoutLines := [],
        stderrLines := ["Error: " ++ ("Failed to connect to Bittensor network: " ++ "finney")],
        outFile := none } :=
  C3_fetch_failure_exits_one 5 "finney" .connectFail .ok none _ rfl

/-- C4: on a successful run the final content of the output file is exactly
the header plus the new rows, and is the same whatever the file held
before the run — no residual old content survives. -/
theorem C4_successful_run_overwrites (netuid : Int) (network : String)
    (env : FetchEnv) (miners : List MinerData) (pre pre2 : Option String)
    (h : get_miners netuid network env = (some miners, none)) :
    (main netuid network env .ok pre).outFile = some (csvContent miners) ∧
    (main netuid network env .ok pre).outFile =
      (main netuid network env .ok pre2).outFile := by
  have hne := get_miners_none_err_ne_nil netuid network env miners h
  have hie : miners.isEmpty = false := by
    rw [Bool.eq_false_iff, Ne, List.isEmpty_iff]; exact hne
  constructor <;> simp [main, h, strTruthy, listTruthy, hie]

/-- C4 witness: a run over a pre-existing file ends with exactly the fresh
CSV content, identical to a run that started with no file. -/
theorem C4_successful_run_overwrites_witness :
    (main 5 "finney" (.ok ⟨[⟨0, "hkA", "ckA", 10, 0⟩], [10], [0]⟩) .ok
        (some "stale,old,rows")).outFile =
      some (csvContent [⟨0, "hkA", "ckA", 10, 0⟩]) ∧
    (main 5 "finney" (.ok ⟨[⟨0, "hkA", "ckA", 10, 0⟩], [10], [0]⟩) .ok
        (some "stale,old,rows")).outFile =
      (main 5 "finney" (.ok ⟨[⟨0, "hkA", "ckA", 10, 0⟩], [10], [0]⟩) .ok none).outFile :=
  C4_successful_run_overwrites 5 "finney" (.ok ⟨[⟨0, "hkA", "ckA", 10, 0⟩], [10], [0]⟩)
    [⟨0, "hkA", "ckA", 10, 0⟩] (some "stale,old,rows") none (by decide)

/-- C5: the fetch step lists every neuron of the snapshot with no filtering
by stake or incentive: the returned records carry exactly the snapshot's
uids, in order, one record per neuron — none fabricated, none dropped. -/
theorem C5_all_neurons_listed (netuid : Int) (network : String)
    (m : Metagraph) (miners : List MinerData)
    (h : (get_miners netuid network (.ok m)).1 = some miners) :
    miners.map MinerData.uid = m.neurons.map Neuron.uid ∧
    miners.length = m.neurons.length := by
  obtain ⟨m2, hm, hb⟩ := get_miners_fst_some netuid network (.ok m) miners h
  injection hm with hmm
  subst hmm
  have hf := buildMiners_forall₂ _ _ miners hb
  exact ⟨forall₂_map_uid _ hf, hf.length_eq.symm⟩

/-- C5 witness: a two-neuron snapshot (one with zero stake and incentive)
yields both uids, unfiltered and in order. -/
theorem C5_all_neurons_listed_witness :
    (get_miners 5 "finney" (.ok ⟨[⟨0, "hkA", "ckA", 10, 0⟩, ⟨1, "hkB", "ckB", 2, 3⟩],
        [10, 4], [0, 7]⟩)).1 = some [⟨0, "hkA", "ckA", 10, 0⟩, ⟨1, "hkB", "ckB", 4, 7⟩] ∧
    ([⟨0, "hkA", "ckA", 10, 0⟩, ⟨1, "hkB", "ckB", 4, 7⟩] : List MinerData).map MinerData.uid =
      ([⟨0, "hkA", "ckA", 10, 0⟩, ⟨1, "hkB", "ckB", 2, 3⟩] : List Neuron).map Neuron.uid :=
  ⟨by decide,
   (C5_all_neurons_listed 5 "finney"
      ⟨[⟨0, "hkA", "ckA", 10, 0⟩, ⟨1, "hkB", "ckB", 2, 3⟩], [10, 4], [0, 7]⟩
      [⟨0, "hkA", "ckA", 10, 0⟩, ⟨1, "hkB", "ckB", 4, 7⟩] (by decide)).1⟩

/-- C6: every fetch-side failure — connection failure, metagraph-retrieval
failure, an exception raised by the SDK, or a fault during the neuron
loop — is collapsed into the single shape `(None, message)` with a
non-empty descriptive message and no structured error value. -/
theorem C6_fetch_failures_collapse (netuid : Int) (network : String)
    (env : FetchEnv) (h : fetchFails env) :
    ∃ msg, get_miners netuid network env = (none, some msg) ∧
      msg.isEmpty = false := by
  cases env with
  | connectFail =>
    exact ⟨_, rfl, append_isEmpty_false _ _ (by decide)⟩
  | metagraphFail =>
    exact ⟨_, rfl, append_isEmpty_false _ _ (by decide)⟩
  | raises e =>
    exact ⟨_, rfl, append_isEmpty_false _ _ (by decide)⟩
  | ok m =>
    have hb : buildMiners m m.neurons = none := h
    exact ⟨"An error occurred: " ++ indexErrorMsg, by simp [get_miners, hb],
      append_isEmpty_false _ _ (by decide)⟩

/-- C6 witness: a connection failure yields `(None, message)`. -/
theorem C6_fetch_failures_collapse_witness :
    fetchFails .connectFail ∧
    ∃ msg, get_miners 5 "finney" .connectFail = (none, some msg) ∧
      msg.isEmpty = false :=
  ⟨trivial, C6_fetch_failures_collapse 5 "finney" .connectFail trivial⟩

/-- C7: an `IOError` during export is reported with the
`Error writing to file ...` message while any other exception gets the
`An unexpected error occurred during file writing: ...` message; the two
lines can never coincide, and both cases exit with code 1 after printing
to standard error. -/
theorem C7_export_errors_distinct (netuid : Int) (network : String)
    (env : FetchEnv) (miners : List MinerData) (pre : Option String)
    (msg msg2 : String) (lf lf2 : Option String)
    (h : get_miners netuid network env = (some miners, none)) :
    (main netuid network env (.ioError msg lf) pre).exitCode = 1 ∧
    (main netuid network env (.otherError msg2 lf2) pre).exitCode = 1 ∧
    (main netuid network env (.ioError msg lf) pre).stderrLines =
      ["Error writing to file " ++ output_file ++ ": " ++ msg] ∧
    (main netuid network env (.otherError msg2 lf2) pre).stderrLines =
      ["An unexpected error occurred during file writing: " ++ msg2] ∧
    (main netuid network env (.ioError msg lf) pre).stderrLines ≠
      (main netuid network env (.otherError msg2 lf2) pre).stderrLines := by
  have hne := get_miners_none_err_ne_nil netuid network env miners h
  have hie : miners.isEmpty = false := by
    rw [Bool.eq_false_iff, Ne, List.isEmpty_iff]; exact hne
  refine ⟨?_, ?_, ?_, ?_, ?_⟩ <;>
    simp [main, h, strTruthy, listTruthy, hie, export_err_lines_ne msg msg2]

/-- C7 witness: concrete I/O and unexpected failures print their distinct
messages and both exit 1. -/
theorem C7_export_errors_distinct_witness :
    (main 5 "finney" (.ok ⟨[⟨0, "hkA", "ckA", 10, 0⟩], [10], [0]⟩)
        (.ioError "disk full" none) none).exitCode = 1 ∧
    (main 5 "finney" (.ok ⟨[⟨0, "hkA", "ckA", 10, 0⟩], [10], [0]⟩)
        (.otherError "boom" none) none).exitCode = 1 ∧
    (main 5 "finney" (.ok ⟨[⟨0, "hkA", "ckA", 10, 0⟩], [10], [0]⟩)
        (.ioError "disk full" none) none).stderrLines =
      ["Error writing to file " ++ output_file ++ ": " ++ "disk full"] ∧
    (main 5 "finney" (.ok ⟨[⟨0, "hkA", "ckA", 10, 0⟩], [10], [0]⟩)
        (.otherError "boom" none) none).stderrLines =
      ["An unexpected error occurred during file writing: " ++ "boom"] ∧
    (main 5 "finney" (.ok ⟨[⟨0, "hkA", "ckA", 10, 0⟩], [10], [0]⟩)
        (.ioError "disk full" none) none).stderrLines ≠
      (main 5 "finney" (.ok ⟨[⟨0, "hkA", "ckA", 10, 0⟩], [10], [0]⟩)
        (.otherError "boom" none) none).stderrLines :=
  C7_export_errors_distinct 5 "finney" (.ok ⟨[⟨0, "hkA", "ckA", 10, 0⟩], [10], [0]⟩)
    [⟨0, "hkA", "ckA", 10, 0⟩] none "disk full" "boom" none none (by decide)

/-- C8: each returned record's stake and incentive come from the parallel
arrays `metagraph.S` / `metagraph.I` indexed at the record's uid, and not
from the values embedded in the neuron record: rewriting every embedded
value leaves the result unchanged. -/
theorem C8_stake_incentive_from_arrays (netuid : Int) (network : String)
    (m : Metagraph) (miners : List MinerData) (f g : Neuron → Int)
    (h : (get_miners netuid network (.ok m)).1 = some miners) :
    List.Forall₂ (fun n r => m.S[n.uid]? = some r.stake ∧
      m.I[n.uid]? = some r.incentive) m.neurons miners ∧
    (get_miners netuid network
      (.ok { m with neurons := m.neurons.map (setEmbedded f g) })).1 = some miners := by
  obtain ⟨m2, hm, hb⟩ := get_miners_fst_some netuid network (.ok m) miners h
  injection hm with hmm
  subst hmm
  constructor
  · exact forall₂_stake_incentive _ (buildMiners_forall₂ _ _ miners hb)
  · have hb2 := buildMiners_setEmbedded m f g m.neurons
    rw [hb] at hb2
    simp only [get_miners]
    rw [hb2]
    by_cases he : miners.isEmpty
    · simp [he]
      rw [List.isEmpty_iff] at he
      exact he
    · simp [he]

/-- C8 witness: a neuron whose embedded values (999, 888) differ from the
arrays (10, 7) yields a record carrying the array values. -/
theorem C8_stake_incentive_from_arrays_witness :
    (get_miners 5 "finney" (.ok ⟨[⟨0, "hk", "ck", 999, 888⟩], [10], [7]⟩)).1 =
      some [⟨0, "hk", "ck", 10, 7⟩] ∧
    List.Forall₂ (fun (n : Neuron) (r : MinerData) =>
        ([10] : List Int)[n.uid]? = some r.stake ∧
        ([7] : List Int)[n.uid]? = some r.incentive)
      [⟨0, "hk", "ck", 999, 888⟩] [⟨0, "hk", "ck", 10, 7⟩] :=
  ⟨by decide,
   (C8_stake_incentive_from_arrays 5 "finney" ⟨[⟨0, "hk", "ck", 999, 888⟩], [10], [7]⟩
      [⟨0, "hk", "ck", 10, 7⟩] (fun _ => 0) (fun _ => 0) (by decide)).1⟩

/-- C9: `get_miners` always returns a pair, and its error component is
`None` exactly when the record component is a non-empty list; an empty
record list or a `None` record component always comes with a message. -/
theorem C9_err_iff_records_nonempty (netuid : Int) (network : String)
    (env : FetchEnv) :
    ((get_miners netuid network env).2 = none ↔
      ∃ l, (get_miners netuid network env).1 = some l ∧ l ≠ []) ∧
    ((get_miners netuid network env).1 = some [] →
      ∃ msg, (get_miners netuid network env).2 = some msg) ∧
    ((get_miners netuid network env).1 = none →
      ∃ msg, (get_miners netuid network env).2 = some msg) := by
  cases env with
  | connectFail => simp [get_miners]
  | metagraphFail => simp [get_miners]
  | raises e => simp [get_miners]
  | ok m =>
    simp only [get_miners]
    cases hb : buildMiners m m.neurons with
    | none => simp
    | some mi =>
      by_cases he : mi.isEmpty
      · simp [he]
      · simp [he]
        rw [← List.isEmpty_iff]
        exact he

/-- C10: the data rows of the output file follow the snapshot's neuron
order: the file is the header then `miners.map minerRow`, and that row
list equals the row determined by each neuron, in iteration order. -/
theorem C10_rows_follow_neuron_order (netuid : Int) (network : String)
    (m : Metagraph) (miners : List MinerData) (pre : Option String)
    (h : get_miners netuid network (.ok m) = (some miners, none)) :
    (main netuid network (.ok m) .ok pre).outFile = some (csvContent miners) ∧
    outputLines miners = headerRow :: miners.map minerRow ∧
    miners.map minerRow = m.neurons.map neuronRow := by
  have hne := get_miners_none_err_ne_nil netuid network (.ok m) miners h
  have hie : miners.isEmpty = false := by
    rw [Bool.eq_false_iff, Ne, List.isEmpty_iff]; exact hne
  obtain ⟨m2, hm, hb⟩ := get_miners_fst_some netuid network (.ok m) miners
    (by rw [h])
  injection hm with hmm
  subst hmm
  refine ⟨?_, rfl, forall₂_map_row _ (buildMiners_forall₂ _ _ miners hb)⟩
  simp [main, h, strTruthy, listTruthy, hie]

/-- C10 witness: a snapshot listing uid 7 before uid 2 yields the rows in
exactly that order. -/
theorem C10_rows_follow_neuron_order_witness :
    (main 5 "finney" (.ok ⟨[⟨7, "hkB", "ckB", 1, 1⟩, ⟨2, "hkA", "ckA", 1, 1⟩],
        [0, 0, 4, 0, 0, 0, 0, 9], [0, 0, 5, 0, 0, 0, 0, 6]⟩) .ok none).outFile =
      some (csvContent [⟨7, "hkB", "ckB", 9, 6⟩, ⟨2, "hkA", "ckA", 4, 5⟩]) ∧
    ([⟨7, "hkB", "ckB", 9, 6⟩, ⟨2, "hkA", "ckA", 4, 5⟩] : List MinerData).map minerRow =
      ([⟨7, "hkB", "ckB", 1, 1⟩, ⟨2, "hkA", "ckA", 1, 1⟩] : List Neuron).map neuronRow :=
  ⟨(C10_rows_follow_neuron_order 5 "finney"
      ⟨[⟨7, "hkB", "ckB", 1, 1⟩, ⟨2, "hkA", "ckA", 1, 1⟩],
        [0, 0, 4, 0, 0, 0, 0, 9], [0, 0, 5, 0, 0, 0, 0, 6]⟩
      [⟨7, "hkB", "ckB", 9, 6⟩, ⟨2, "hkA", "ckA", 4, 5⟩] none (by decide)).1,
   (C10_rows_follow_neuron_order 5 "finney"
      ⟨[⟨7, "hkB", "ckB", 1, 1⟩, ⟨2, "hkA", "ckA", 1, 1⟩],
        [0, 0, 4, 0, 0, 0, 0, 9], [0, 0, 5, 0, 0, 0, 0, 6]⟩
      [⟨7, "hkB", "ckB", 9, 6⟩, ⟨2, "hkA", "ckA", 4, 5⟩] none (by decide)).2.2⟩

end GetMiners
